import Mathlib

/-!
Verification development for the codex-cli API audit logger
(src/codex-cli/src/utils/api-logger.ts and the revision in src/unnamed/part_001).

The subsystem records outbound API requests and responses: it redacts
secrets (sanitizeData), correlates requests with later responses through a
pending map, detects stream-controller placeholder objects, and appends
formatted entries to a per-session log file.

Modelling conventions:
- JSON-representable JavaScript values are the inductive JsVal; JS truthiness
  and property access are modelled exactly (absent fields read as undefined,
  objects are always truthy, the empty string and 0 are falsy).
- JSON.parse(JSON.stringify(x)) on an acyclic value is jsonClone, which drops
  fields whose value is undefined, as JSON.stringify does.
- Mutation of shared objects (needed for the cyclic-input fallback path of
  sanitizeData) is modelled separately with an explicit heap of object ids.
- Filesystem calls are modelled by an Fx record of outcomes; a call that the
  source wraps in try/catch is modelled by branching on the outcome, a call
  outside any try/catch propagates as Except.error.
- Log entries are modelled structurally: each constructor of LogSection and
  LogEntry stands for the exact labeled text block the source concatenates,
  in the order the source concatenates them.
-/

set_option autoImplicit false

/-- JSON-representable JavaScript values. Objects are association lists of
own properties in insertion order. -/
inductive JsVal where
  | vNull
  | vUndefined
  | vBool (b : Bool)
  | vNum (n : Int)
  | vStr (s : String)
  | vObj (fields : List (String × JsVal))

namespace JsVal

/-- JavaScript truthiness of a value: null, undefined, false, 0 and the empty
string are falsy, every object is truthy. -/
def truthy : JsVal → Bool
  | .vNull => false
  | .vUndefined => false
  | .vBool b => b
  | .vNum n => n != 0
  | .vStr s => s != ""
  | .vObj _ => true

/-- Result of the JS typeof test: typeof x is the string object exactly for
objects and null. -/
def typeofIsObject : JsVal → Bool
  | .vObj _ => true
  | .vNull => true
  | _ => false

/-- The JS test x === undefined (and x !== undefined, negated). -/
def isUndefined : JsVal → Bool
  | .vUndefined => true
  | _ => false

end JsVal

/-- First binding of a key in an object field list; reading an absent
property yields undefined. -/
def objGet : List (String × JsVal) → String → JsVal
  | [], _ => .vUndefined
  | (k', v) :: rest, k => if k' = k then v else objGet rest k

/-- Property write on an object field list: replace the first binding of the
key, or append a new binding when the key is absent. -/
def objSet : List (String × JsVal) → String → JsVal → List (String × JsVal)
  | [], k, v => [(k, v)]
  | (k', v') :: rest, k, v =>
    if k' = k then (k, v) :: rest else (k', v') :: objSet rest k v

/-- JS property read x.k: undefined on non-objects. -/
def getField : JsVal → String → JsVal
  | .vObj fs, k => objGet fs k
  | _, _ => .vUndefined

/-- JS property write x.k = v on an object; a primitive receiver is returned
unchanged (every write in the modelled source is guarded by a truthiness test
that is false on primitives). -/
def setField (x : JsVal) (k : String) (v : JsVal) : JsVal :=
  match x with
  | .vObj fs => .vObj (objSet fs k v)
  | other => other

mutual

/-- JSON.parse(JSON.stringify(x)) for an acyclic value: a structural copy
that drops object fields whose value is undefined, as JSON.stringify does. -/
def jsonClone : JsVal → JsVal
  | .vObj fs => .vObj (jsonCloneFields fs)
  | .vNull => .vNull
  | .vUndefined => .vUndefined
  | .vBool b => .vBool b
  | .vNum n => .vNum n
  | .vStr s => .vStr s

/-- Field-list part of jsonClone: undefined-valued fields are dropped. -/
def jsonCloneFields : List (String × JsVal) → List (String × JsVal)
  | [] => []
  | (k, v) :: rest =>
    if v.isUndefined then jsonCloneFields rest
    else (k, jsonClone v) :: jsonCloneFields rest

end

/-- The fixed redaction marker written over secret fields
(api-logger.ts lines 109-120, part_001 lines 42-62). -/
def redactedMarker : JsVal := .vStr "[REDACTED]"

/-- One inner conditional of sanitizeData: overwrite the binding of key k
with the marker when its current value is truthy, as in
if (x.headers.authorization) x.headers.authorization = "[REDACTED]". -/
def redactKeyTruthy (x : JsVal) (k : String) : JsVal :=
  if (getField x k).truthy then setField x k redactedMarker else x

/-- The two inner conditionals of sanitizeData applied to the value of a
headers or defaultHeaders field: overwrite a truthy authorization and then a
truthy Authorization binding with the marker (api-logger.ts lines 108-117).
On a primitive the property reads yield undefined, so nothing happens. -/
def redactAuthIn (v : JsVal) : JsVal :=
  redactKeyTruthy (redactKeyTruthy v "authorization") "Authorization"

/-- One headers-like step of sanitizeData: if the named field of the clone is
truthy, rewrite the authorization variants inside it
(api-logger.ts lines 108-117: the same code is run for headers and for
defaultHeaders). -/
def redactHeaderField (k : String) (x : JsVal) : JsVal :=
  if (getField x k).truthy then setField x k (redactAuthIn (getField x k)) else x

/-- Final step of sanitizeData: a truthy top-level apiKey field is overwritten
with the marker (api-logger.ts line 120). -/
def redactApiKey (x : JsVal) : JsVal :=
  if (getField x "apiKey").truthy then setField x "apiKey" redactedMarker else x

/-- sanitizeData (api-logger.ts lines 96-123, identically part_001 lines
25-66) on a JSON-representable (hence serializable) value: a falsy input is
returned unchanged; otherwise the value is deep-copied via the JSON
round-trip and the headers, defaultHeaders and apiKey redactions are applied
to the copy in source order. The cyclic-input fallback path is modelled
separately on the heap model below (it cannot arise on JsVal, which has no
cycles, exactly as JSON.stringify only throws on cyclic inputs). -/
def sanitizeData (data : JsVal) : JsVal :=
  if data.truthy = false then data
  else
    redactApiKey (redactHeaderField "defaultHeaders"
      (redactHeaderField "headers" (jsonClone data)))

-- Basic lemmas about the object operations.

theorem objGet_objSet_self (fs : List (String × JsVal)) (k : String) (v : JsVal) :
    objGet (objSet fs k v) k = v := by
  induction fs with
  | nil => simp [objGet, objSet]
  | cons hd tl ih =>
    obtain ⟨k', v'⟩ := hd
    by_cases h : k' = k
    · simp [objGet, objSet, h]
    · simp [objGet, objSet, h, ih]

theorem objGet_objSet_ne (fs : List (String × JsVal)) (k k' : String) (v : JsVal)
    (h : k' ≠ k) : objGet (objSet fs k v) k' = objGet fs k' := by
  have hks : k ≠ k' := Ne.symm h
  induction fs with
  | nil => simp [objGet, objSet, hks]
  | cons hd tl ih =>
    obtain ⟨k0, v0⟩ := hd
    by_cases h0 : k0 = k
    · subst h0
      simp [objGet, objSet, hks]
    · simp [objGet, objSet, h0, ih]

theorem truthy_jsonClone (v : JsVal) : (jsonClone v).truthy = v.truthy := by
  cases v <;> simp [jsonClone, JsVal.truthy]

theorem isUndefined_of_truthy (v : JsVal) (h : v.truthy = true) : v.isUndefined = false := by
  cases v <;> simp_all [JsVal.truthy, JsVal.isUndefined]

theorem objGet_jsonCloneFields (fs : List (String × JsVal)) (k : String)
    (h : (objGet fs k).truthy = true) :
    objGet (jsonCloneFields fs) k = jsonClone (objGet fs k) := by
  induction fs with
  | nil => simp [objGet, JsVal.truthy] at h
  | cons hd tl ih =>
    obtain ⟨k0, v0⟩ := hd
    by_cases h0 : k0 = k
    · subst h0
      have hvt : v0.truthy = true := by simpa [objGet] using h
      have hv : v0.isUndefined = false := isUndefined_of_truthy v0 hvt
      simp [objGet, jsonCloneFields, hv]
    · have h' : (objGet tl k).truthy = true := by
        simpa [objGet, h0] using h
      by_cases hv : v0.isUndefined = true
      · simp [jsonCloneFields, hv, ih h', objGet, h0]
      · simp only [Bool.not_eq_true] at hv
        simp [jsonCloneFields, hv, objGet, h0, ih h']

theorem getField_jsonClone (x : JsVal) (k : String)
    (h : (getField x k).truthy = true) :
    getField (jsonClone x) k = jsonClone (getField x k) := by
  cases x with
  | vObj fs => simpa [getField, jsonClone] using objGet_jsonCloneFields fs k h
  | vNull => simp [getField, JsVal.truthy] at h
  | vUndefined => simp [getField, JsVal.truthy] at h
  | vBool b => simp [getField, JsVal.truthy] at h
  | vNum n => simp [getField, JsVal.truthy] at h
  | vStr s => simp [getField, JsVal.truthy] at h

theorem obj_exists_of_field_truthy (x : JsVal) (k : String)
    (h : (getField x k).truthy = true) : ∃ fs, x = .vObj fs := by
  cases x with
  | vObj fs => exact ⟨fs, rfl⟩
  | vNull => simp [getField, JsVal.truthy] at h
  | vUndefined => simp [getField, JsVal.truthy] at h
  | vBool b => simp [getField, JsVal.truthy] at h
  | vNum n => simp [getField, JsVal.truthy] at h
  | vStr s => simp [getField, JsVal.truthy] at h

theorem truthy_of_field_truthy (x : JsVal) (k : String)
    (h : (getField x k).truthy = true) : x.truthy = true := by
  obtain ⟨fs, rfl⟩ := obj_exists_of_field_truthy x k h
  rfl

theorem getField_setField_self (x : JsVal) (k : String) (v : JsVal)
    (hx : ∃ fs, x = .vObj fs) : getField (setField x k v) k = v := by
  obtain ⟨fs, rfl⟩ := hx
  simp [setField, getField, objGet_objSet_self]

theorem getField_setField_ne (x : JsVal) (k k' : String) (v : JsVal)
    (h : k' ≠ k) : getField (setField x k v) k' = getField x k' := by
  cases x <;> simp [setField, getField, objGet_objSet_ne _ _ _ _ h]

theorem getField_redactHeaderField_ne (x : JsVal) (k k' : String) (h : k' ≠ k) :
    getField (redactHeaderField k x) k' = getField x k' := by
  unfold redactHeaderField
  split
  · exact getField_setField_ne x k k' _ h
  · rfl

theorem getField_redactHeaderField_self (x : JsVal) (k : String)
    (h : (getField x k).truthy = true) :
    getField (redactHeaderField k x) k = redactAuthIn (getField x k) := by
  unfold redactHeaderField
  rw [if_pos h]
  exact getField_setField_self x k _ (obj_exists_of_field_truthy x k h)

theorem getField_redactApiKey_ne (x : JsVal) (k' : String) (h : k' ≠ "apiKey") :
    getField (redactApiKey x) k' = getField x k' := by
  unfold redactApiKey
  split
  · exact getField_setField_ne x "apiKey" k' _ h
  · rfl

theorem getField_redactApiKey_self (x : JsVal)
    (h : (getField x "apiKey").truthy = true) :
    getField (redactApiKey x) "apiKey" = redactedMarker := by
  unfold redactApiKey
  rw [if_pos h]
  exact getField_setField_self x "apiKey" _ (obj_exists_of_field_truthy x _ h)

theorem getField_redactKeyTruthy_self (x : JsVal) (k : String)
    (h : (getField x k).truthy = true) :
    getField (redactKeyTruthy x k) k = redactedMarker := by
  unfold redactKeyTruthy
  rw [if_pos h]
  exact getField_setField_self x k _ (obj_exists_of_field_truthy x k h)

theorem getField_redactKeyTruthy_ne (x : JsVal) (k k' : String) (h : k' ≠ k) :
    getField (redactKeyTruthy x k) k' = getField x k' := by
  unfold redactKeyTruthy
  split
  · exact getField_setField_ne x k k' _ h
  · rfl

theorem getField_redactAuthIn_lower (v : JsVal)
    (h : (getField v "authorization").truthy = true) :
    getField (redactAuthIn v) "authorization" = redactedMarker := by
  unfold redactAuthIn
  rw [getField_redactKeyTruthy_ne _ _ _ (by decide)]
  exact getField_redactKeyTruthy_self v _ h

theorem getField_redactAuthIn_upper (v : JsVal)
    (h : (getField v "Authorization").truthy = true) :
    getField (redactAuthIn v) "Authorization" = redactedMarker := by
  unfold redactAuthIn
  exact getField_redactKeyTruthy_self _ _
    (by rw [getField_redactKeyTruthy_ne _ _ _ (by decide)]; exact h)

/-- The value sitting at the headers (or defaultHeaders) slot of the sanitized
copy, when that slot held a truthy value with a truthy key k inside: the
pipeline rewrites the slot to redactAuthIn of the cloned slot value. -/
theorem getField_sanitizeData_headers (d : JsVal) (slot : String)
    (hslot : slot = "headers" ∨ slot = "defaultHeaders")
    (hS : (getField d slot).truthy = true) :
    getField (sanitizeData d) slot = redactAuthIn (jsonClone (getField d slot)) := by
  have hd : d.truthy = true := truthy_of_field_truthy d slot hS
  have hCS : getField (jsonClone d) slot = jsonClone (getField d slot) :=
    getField_jsonClone d slot hS
  have hCSt : (getField (jsonClone d) slot).truthy = true := by
    rw [hCS, truthy_jsonClone]; exact hS
  unfold sanitizeData
  rw [if_neg (by simp [hd])]
  rcases hslot with rfl | rfl
  · rw [getField_redactApiKey_ne _ _ (by decide),
        getField_redactHeaderField_ne _ _ _ (by decide),
        getField_redactHeaderField_self _ _ hCSt, hCS]
  · rw [getField_redactApiKey_ne _ _ (by decide),
        getField_redactHeaderField_self _ _
          (by rw [getField_redactHeaderField_ne _ _ _ (by decide)]; exact hCSt),
        getField_redactHeaderField_ne _ _ _ (by decide), hCS]

/-- C1 (amended): for the two case variants the source actually tests,
authorization and Authorization, a truthy binding under a top-level headers
or defaultHeaders field, and a truthy top-level apiKey field, are overwritten
with the fixed marker by sanitizeData; the secret value no longer sits at
that position. The amendment restricts the claim from any case variant to
exactly these two spellings, and from any value to truthy values (the source
guards every overwrite with a JS truthiness test). -/
theorem c1_redaction_amended (d : JsVal) (k : String)
    (hk : k = "authorization" ∨ k = "Authorization") :
    ((getField (getField d "headers") k).truthy = true →
      getField (getField (sanitizeData d) "headers") k = redactedMarker)
    ∧ ((getField (getField d "defaultHeaders") k).truthy = true →
      getField (getField (sanitizeData d) "defaultHeaders") k = redactedMarker)
    ∧ ((getField d "apiKey").truthy = true →
      getField (sanitizeData d) "apiKey" = redactedMarker) := by
  refine ⟨?_, ?_, ?_⟩
  · intro h
    have hH : (getField d "headers").truthy = true := truthy_of_field_truthy _ _ h
    rw [getField_sanitizeData_headers d "headers" (Or.inl rfl) hH]
    have hck : getField (jsonClone (getField d "headers")) k
        = jsonClone (getField (getField d "headers") k) := getField_jsonClone _ _ h
    have hckt : (getField (jsonClone (getField d "headers")) k).truthy = true := by
      rw [hck, truthy_jsonClone]; exact h
    rcases hk with rfl | rfl
    · exact getField_redactAuthIn_lower _ hckt
    · exact getField_redactAuthIn_upper _ hckt
  · intro h
    have hH : (getField d "defaultHeaders").truthy = true :=
      truthy_of_field_truthy _ _ h
    rw [getField_sanitizeData_headers d "defaultHeaders" (Or.inr rfl) hH]
    have hck : getField (jsonClone (getField d "defaultHeaders")) k
        = jsonClone (getField (getField d "defaultHeaders") k) := getField_jsonClone _ _ h
    have hckt : (getField (jsonClone (getField d "defaultHeaders")) k).truthy = true := by
      rw [hck, truthy_jsonClone]; exact h
    rcases hk with rfl | rfl
    · exact getField_redactAuthIn_lower _ hckt
    · exact getField_redactAuthIn_upper _ hckt
  · intro h
    have hd : d.truthy = true := truthy_of_field_truthy _ _ h
    have hc : getField (jsonClone d) "apiKey" = jsonClone (getField d "apiKey") :=
      getField_jsonClone _ _ h
    have hct : (getField (jsonClone d) "apiKey").truthy = true := by
      rw [hc, truthy_jsonClone]; exact h
    unfold sanitizeData
    rw [if_neg (by simp [hd])]
    apply getField_redactApiKey_self
    rw [getField_redactHeaderField_ne _ _ _ (by decide),
        getField_redactHeaderField_ne _ _ _ (by decide)]
    exact hct

/-- A payload on which the claim C1, as stated, fails: the headers object
carries the secret under the case variant AUTHORIZATION, and the top-level
apiKey holds the falsy empty string. sanitizeData leaves both untouched, so
the positions do not hold the marker and the original values survive. -/
def c1CexPayload : JsVal :=
  .vObj [("headers", .vObj [("AUTHORIZATION", .vStr "secret")]),
         ("apiKey", .vStr "")]

/-- C1 counterexample: sanitizeData does not redact the case variant
AUTHORIZATION under headers (the source only tests the spellings
authorization and Authorization), and does not redact a falsy apiKey value;
both original values survive in the result, contradicting the claim that
every case variant of an authorization key and every apiKey position end up
holding the marker. -/
theorem c1_redaction_cex :
    getField (getField (sanitizeData c1CexPayload) "headers") "AUTHORIZATION"
      = .vStr "secret"
    ∧ getField (sanitizeData c1CexPayload) "apiKey" = .vStr "" :=
  ⟨rfl, rfl⟩

/-- A concrete secret-bearing payload for the C1 witness. -/
def c1WitnessPayload : JsVal :=
  .vObj [("headers", .vObj [("authorization", .vStr "Bearer sk-test")]),
         ("defaultHeaders", .vObj [("Authorization", .vStr "Bearer tok")]),
         ("apiKey", .vStr "key123")]

/-- C1 witness: the amended theorem applied at a concrete payload carrying
truthy secrets in all three redacted positions. -/
theorem c1_redaction_witness :
    getField (getField (sanitizeData c1WitnessPayload) "headers") "authorization"
      = redactedMarker
    ∧ getField (getField (sanitizeData c1WitnessPayload) "defaultHeaders")
        "Authorization" = redactedMarker
    ∧ getField (sanitizeData c1WitnessPayload) "apiKey" = redactedMarker :=
  ⟨(c1_redaction_amended c1WitnessPayload "authorization" (Or.inl rfl)).1 (by rfl),
   (c1_redaction_amended c1WitnessPayload "Authorization" (Or.inr rfl)).2.1 (by rfl),
   (c1_redaction_amended c1WitnessPayload "authorization" (Or.inl rfl)).2.2 (by rfl)⟩

/-!
Heap model of sanitizeData, for inputs that can share and cycle.
Objects live in an explicit heap indexed by ids; hRef is a JS object
reference. JSON.stringify throws exactly when it meets an object already on
the current ancestor path; the fuel argument only bounds traversal depth and
is chosen larger than any path the finite heap can produce.
-/

abbrev ObjId := Nat

/-- Heap values: primitives, or references to heap objects. -/
inductive HVal where
  | hNull
  | hUndefined
  | hBool (b : Bool)
  | hNum (n : Int)
  | hStr (s : String)
  | hRef (r : ObjId)
deriving DecidableEq, Repr

abbrev HObj := List (String × HVal)
abbrev Heap := List (ObjId × HObj)

/-- Field list of the object with a given id (objects not in the heap read
as empty; every id used below is in the heap). -/
def heapGet : Heap → ObjId → HObj
  | [], _ => []
  | (r', o) :: rest, r => if r' = r then o else heapGet rest r

/-- Replace the field list of the object with a given id. -/
def heapSet : Heap → ObjId → HObj → Heap
  | [], _, _ => []
  | (r', o) :: rest, r, o' =>
    if r' = r then (r, o') :: rest else (r', o) :: heapSet rest r o'

/-- First binding of a key in a heap object; absent keys read as undefined. -/
def hobjGet : HObj → String → HVal
  | [], _ => .hUndefined
  | (k', v) :: rest, k => if k' = k then v else hobjGet rest k

/-- Property write on a heap object field list. -/
def hobjSet : HObj → String → HVal → HObj
  | [], k, v => [(k, v)]
  | (k', v') :: rest, k, v =>
    if k' = k then (k, v) :: rest else (k', v') :: hobjSet rest k v

/-- JS truthiness on heap values; object references are always truthy. -/
def truthyH : HVal → Bool
  | .hNull => false
  | .hUndefined => false
  | .hBool b => b
  | .hNum n => n != 0
  | .hStr s => s != ""
  | .hRef _ => true

/-- An id unused by the heap, for allocating fresh objects. -/
def freshId (h : Heap) : ObjId :=
  (h.map Prod.fst).foldr (fun a b => max a b) 0 + 1

mutual

/-- JSON.stringify on the heap, returned as the parsed JSON tree: none models
the TypeError thrown on a value that references an object already on the
current ancestor path (a cycle). Fields with undefined values are dropped. -/
def stringifyH : Nat → Heap → List ObjId → HVal → Option JsVal
  | 0, _, _, _ => none
  | _ + 1, _, _, .hNull => some .vNull
  | _ + 1, _, _, .hUndefined => some .vUndefined
  | _ + 1, _, _, .hBool b => some (.vBool b)
  | _ + 1, _, _, .hNum n => some (.vNum n)
  | _ + 1, _, _, .hStr s => some (.vStr s)
  | f + 1, h, path, .hRef r =>
    if r ∈ path then none
    else
      match stringifyFieldsH f h (r :: path) (heapGet h r) with
      | some fl => some (.vObj fl)
      | none => none

/-- Field part of stringifyH. -/
def stringifyFieldsH : Nat → Heap → List ObjId → List (String × HVal) →
    Option (List (String × JsVal))
  | 0, _, _, _ => none
  | _ + 1, _, _, [] => some []
  | f + 1, h, path, (k, v) :: rest =>
    if v = .hUndefined then stringifyFieldsH f h path rest
    else
      match stringifyH f h path v, stringifyFieldsH f h path rest with
      | some j, some r => some ((k, j) :: r)
      | _, _ => none

end

/-- Fuel that over-approximates any traversal depth of the finite heap. -/
def heapFuel (h : Heap) : Nat :=
  h.foldr (fun p n => n + p.2.length + 2) 0 + 2

mutual

/-- JSON.parse of a JSON tree into the heap: every object literal allocates a
fresh heap object, so the parsed copy shares nothing with existing objects. -/
def parseAllocH : JsVal → Nat → Heap → HVal × Nat × Heap
  | .vObj fs, n, h =>
    let out := parseAllocFieldsH fs (n + 1) h
    (.hRef n, out.2.1, out.2.2 ++ [(n, out.1)])
  | .vNull, n, h => (.hNull, n, h)
  | .vUndefined, n, h => (.hUndefined, n, h)
  | .vBool b, n, h => (.hBool b, n, h)
  | .vNum m, n, h => (.hNum m, n, h)
  | .vStr s, n, h => (.hStr s, n, h)

/-- Field part of parseAllocH. -/
def parseAllocFieldsH : List (String × JsVal) → Nat → Heap →
    List (String × HVal) × Nat × Heap
  | [], n, h => ([], n, h)
  | (k, v) :: rest, n, h =>
    let out := parseAllocH v n h
    let outR := parseAllocFieldsH rest out.2.1 out.2.2
    ((k, out.1) :: outR.1, outR.2.1, outR.2.2)

end

/-- Property read x.k through the heap: undefined on primitives. -/
def getFieldH (h : Heap) (v : HVal) (k : String) : HVal :=
  match v with
  | .hRef r => hobjGet (heapGet h r) k
  | _ => .hUndefined

/-- Property write x.k = w through the heap: mutates the referenced object in
place; a primitive receiver leaves the heap unchanged (unreachable in the
modelled source, whose writes are guarded by truthiness of the old value). -/
def setFieldH (h : Heap) (v : HVal) (k : String) (w : HVal) : Heap :=
  match v with
  | .hRef r => heapSet h r (hobjSet (heapGet h r) k w)
  | _ => h

/-- One inner conditional of sanitizeData on the heap: overwrite binding k of
the receiver with the marker when the current value is truthy. -/
def redactKeyTruthyH (h : Heap) (v : HVal) (k : String) : Heap :=
  if truthyH (getFieldH h v k) then setFieldH h v k (.hStr "[REDACTED]") else h

/-- The authorization and Authorization overwrites applied to the value of a
headers or defaultHeaders slot (api-logger.ts lines 108-117), on the heap. -/
def redactAuthInH (h : Heap) (v : HVal) : Heap :=
  redactKeyTruthyH (redactKeyTruthyH h v "authorization") v "Authorization"

/-- The three top-level redaction steps of sanitizeData applied to the clone,
in source order, mutating the heap they run on. -/
def redactStepsH (h : Heap) (c : HVal) : Heap :=
  let h1 := if truthyH (getFieldH h c "headers")
    then redactAuthInH h (getFieldH h c "headers") else h
  let h2 := if truthyH (getFieldH h1 c "defaultHeaders")
    then redactAuthInH h1 (getFieldH h1 c "defaultHeaders") else h1
  if truthyH (getFieldH h2 c "apiKey")
    then setFieldH h2 c "apiKey" (.hStr "[REDACTED]") else h2

/-- The spread clone fallback sanitized = { ...data }: a fresh object whose
field list copies the top-level field list of the receiver, sharing every
nested object reference. Primitives never reach this path, because their
serialization cannot cycle. -/
def spreadFieldsH (h : Heap) : HVal → HObj
  | .hRef r => heapGet h r
  | _ => []

/-- sanitizeData (api-logger.ts lines 96-123, part_001 lines 25-66) on the
heap model: falsy input returned unchanged; otherwise try the JSON deep copy
(fails exactly on cycles), fall back to the shallow spread copy, then apply
the three redaction steps to the copy. Returns the possibly mutated heap and
the returned value. -/
def sanitizeDataH (h : Heap) (v : HVal) : Heap × HVal :=
  if truthyH v = false then (h, v)
  else
    match stringifyH (heapFuel h) h [] v with
    | some j =>
      let out := parseAllocH j (freshId h) h
      (redactStepsH out.2.2 out.1, out.1)
    | none =>
      let f := freshId h
      let h1 := h ++ [(f, spreadFieldsH h v)]
      (redactStepsH h1 (.hRef f), .hRef f)

/-- The failing input for C2: a cyclic payload p with
p.headers = { authorization: "secret" } and p.self = p. Object 0 is p itself,
object 1 is its headers object. -/
def c2CyclicHeap : Heap :=
  [(0, [("headers", .hRef 1), ("self", .hRef 0)]),
   (1, [("authorization", .hStr "secret")])]

/-- C2 (code bug, evaluated at the failing input): on a cyclic payload the
deep copy fails, sanitizeData falls back to the shallow spread copy, whose
headers slot still references the caller object 1; the redaction write then
mutates that input object in place. Before the call the input object holds
"secret"; after the call the very same object (id 1, reachable from the
input reference) holds the marker, so the input was mutated, contradicting
the claim (and the source comment that the clone avoids modifying the
original). The call still returns normally, and it returns a fresh object
(the allocated id), not the original reference. -/
theorem c2_sanitize_mutates_cyclic_input :
    hobjGet (heapGet c2CyclicHeap 1) "authorization" = .hStr "secret"
    ∧ hobjGet (heapGet (sanitizeDataH c2CyclicHeap (.hRef 0)).1 1) "authorization"
        = .hStr "[REDACTED]"
    ∧ (sanitizeDataH c2CyclicHeap (.hRef 0)).2 = .hRef (freshId c2CyclicHeap) := by
  refine ⟨by decide, by decide, by decide⟩

/-!
Model of the ApiLogger class of src/codex-cli/src/utils/api-logger.ts.
Timestamps and generated ids are ambient inputs (Date and Math.random), so
the operations take them as parameters. Filesystem call outcomes are an Fx
record; calls the source wraps in try/catch are modelled by branching on the
outcome, the one call outside any try/catch (mkdirSync in the constructor)
propagates as Except.error.
-/

/-- Outcomes of the filesystem calls of one run: whether the logs directory
already exists, and whether each kind of call succeeds rather than throws. -/
structure Fx where
  dirExists : Bool
  mkdirOk : Bool
  writeOk : Bool
  appendOk : Bool
deriving DecidableEq, Repr

/-- The only error source in the subsystem: a filesystem call throwing. -/
inductive JsErr where
  | fsErr
deriving DecidableEq, Repr

/-- One labeled block of a formatted log entry, in the order the source
concatenates blocks. Each constructor stands for the exact label text:
respRequest for a RESPONSES (API or FORMAT) REQUEST block, chatRequestT for
a CHAT COMPLETIONS REQUEST (TRANSLATED) block, chatResponse for a CHAT
COMPLETIONS RESPONSE block, respResponse b for a RESPONSES RESPONSE block
whose label carries the BACK-TRANSLATED suffix exactly when b is true
(part_001 revision), respResponseT for the RESPONSES API RESPONSE
(TRANSLATED) block of the main revision, and pendingNote for the literal
line that the response will be logged separately after streaming. -/
inductive LogSection where
  | respRequest (v : JsVal)
  | chatRequestT (v : JsVal)
  | chatResponse (v : JsVal)
  | respResponse (backTranslated : Bool) (v : JsVal)
  | respResponseT (v : JsVal)
  | pendingNote

/-- A formatted non-marker log entry: timestamp line, caller/debug line,
whether the NO MATCHING REQUEST FOUND banner is present, whether the
response-storage-disabled note is present, and the section blocks in
concatenation order. -/
structure EntryData where
  ts : String
  callerLine : String
  noMatch : Bool
  storageNote : Bool
  sections : List LogSection

/-- One appended log entry: either the one-line disable-response-storage
marker entry, or a formatted entry. -/
inductive LogEntry where
  | marker (ts : String)
  | entry (e : EntryData)

/-- True exactly on the interim entries: those carrying the literal note
that the response will be logged separately. -/
def isInterimEntry : LogEntry → Bool
  | .entry e => e.sections.any (fun sec => match sec with
      | .pendingNote => true
      | _ => false)
  | .marker _ => false

-- A string-keyed map as an association list, observed only through get, set
-- and delete, exactly the operations the source uses on its JS Map.

/-- Map.get: first binding of the key. -/
def mapGet {α : Type} : List (String × α) → String → Option α
  | [], _ => none
  | (k', v) :: rest, k => if k' = k then some v else mapGet rest k

/-- Map.delete: drop every binding of the key. -/
def mapDel {α : Type} (l : List (String × α)) (k : String) : List (String × α) :=
  l.filter (fun p => p.1 != k)

/-- Map.set: bind the key, replacing any previous binding. -/
def mapSet {α : Type} (l : List (String × α)) (k : String) (v : α) :
    List (String × α) :=
  (k, v) :: mapDel l k

/-- A pending request record of the main revision (api-logger.ts lines
19-24): timestamp, caller, the raw primary request, and the raw translated
request, read as undefined when the record was stored without one. -/
structure MainPending where
  ts : String
  caller : String
  responsesRequest : JsVal
  chatRequest : JsVal

/-- State of the main ApiLogger: the enabled flag, the
disableResponseStorage flag, the pending-request map and the sequence of
successfully appended log entries. -/
structure MainSt where
  enabled : Bool
  disableStorage : Bool
  pending : List (String × MainPending)
  log : List LogEntry

/-- The CALLER line of an interim or unmatched entry. -/
def mkCallerLine (caller id : String) : String :=
  caller ++ " (requestId: " ++ id ++ ")"

/-- The CALLER line of a completed entry, which also names the caller that
logged the request. -/
def mkCallerLine2 (caller id reqCaller : String) : String :=
  caller ++ " (requestId: " ++ id ++ ", requestCaller: " ++ reqCaller ++ ")"

/-- appendToLog (api-logger.ts lines 135-144): no-op when disabled;
otherwise append, catching a throwing appendFileSync so that the entry is
lost but nothing propagates. -/
def appendToLog (fx : Fx) (e : LogEntry) (s : MainSt) : MainSt :=
  if s.enabled = false then s
  else if fx.appendOk then { s with log := s.log ++ [e] } else s

/-- setDisableResponseStorage (api-logger.ts lines 69-84): on an actual
change while enabled, record the flag and, when turning on, append the
one-line marker entry. -/
def setDisableResponseStorage (fx : Fx) (ts : String) (b : Bool) (s : MainSt) :
    MainSt :=
  if (s.disableStorage != b) && s.enabled then
    let s0 := { s with disableStorage := b }
    if b then appendToLog fx (.marker ts) s0 else s0
  else s

/-- logResponsesRequest (api-logger.ts lines 153-181): when enabled, store
the raw request under the id (Map.set, replacing any previous binding) and
append an interim entry with the sanitized request. -/
def logResponsesRequest (fx : Fx) (ts id : String) (req : JsVal)
    (caller : String) (s : MainSt) : MainSt :=
  if s.enabled = false then s
  else
    let sreq := sanitizeData req
    let s1 := { s with pending := mapSet s.pending id ⟨ts, caller, req, .vUndefined⟩ }
    appendToLog fx
      (.entry ⟨ts, mkCallerLine caller id, false, false,
        [.respRequest sreq, .pendingNote]⟩) s1

/-- logResponsesResponse (api-logger.ts lines 190-229): when enabled, look
the id up; absent ids get a flagged response-only entry and the map is left
alone; present ids get a combined request/response entry and the binding is
then deleted (the append is made through appendToLog, which catches its own
failures, so the delete always runs). -/
def logResponsesResponse (fx : Fx) (ts id : String) (resp : JsVal)
    (caller : String) (s : MainSt) : MainSt :=
  if s.enabled = false then s
  else
    let sresp := sanitizeData resp
    match mapGet s.pending id with
    | none =>
      appendToLog fx
        (.entry ⟨ts, mkCallerLine caller id, true, false,
          [.respResponse false sresp]⟩) s
    | some p =>
      let sreq := sanitizeData p.responsesRequest
      let s1 := appendToLog fx
        (.entry ⟨ts, mkCallerLine2 caller id p.caller, false, false,
          [.respRequest sreq, .respResponse false sresp]⟩) s
      { s1 with pending := mapDel s1.pending id }

/-- logChatCompletionsRequest (api-logger.ts lines 239-277): like
logResponsesRequest but storing and printing the translated request too. -/
def logChatCompletionsRequest (fx : Fx) (ts id : String) (rreq creq : JsVal)
    (caller : String) (s : MainSt) : MainSt :=
  if s.enabled = false then s
  else
    let sr := sanitizeData rreq
    let sc := sanitizeData creq
    let s1 := { s with pending := mapSet s.pending id ⟨ts, caller, rreq, creq⟩ }
    appendToLog fx
      (.entry ⟨ts, mkCallerLine caller id, false, false,
        [.respRequest sr, .chatRequestT sc, .pendingNote]⟩) s1

/-- logChatCompletionsResponse (api-logger.ts lines 287-342): the chat-path
response logger. Note that the completed entry always prints all four
sections (a missing stored translated request prints as undefined) and its
final section carries the TRANSLATED label, never a BACK-TRANSLATED one. -/
def logChatCompletionsResponse (fx : Fx) (ts id : String) (cresp rresp : JsVal)
    (caller : String) (s : MainSt) : MainSt :=
  if s.enabled = false then s
  else
    let scr := sanitizeData cresp
    let srr := sanitizeData rresp
    match mapGet s.pending id with
    | none =>
      appendToLog fx
        (.entry ⟨ts, mkCallerLine caller id, true, false,
          [.chatResponse scr, .respResponseT srr]⟩) s
    | some p =>
      let srq := sanitizeData p.responsesRequest
      let scq := sanitizeData p.chatRequest
      let s1 := appendToLog fx
        (.entry ⟨ts, mkCallerLine2 caller id p.caller, false, false,
          [.respRequest srq, .chatRequestT scq, .chatResponse scr,
           .respResponseT srr]⟩) s
      { s1 with pending := mapDel s1.pending id }

/-- handlePossibleStreamController (api-logger.ts lines 352-370): a truthy
object whose controller property is not undefined is treated as a stream
controller; the request alone is logged under the fresh generated id, which
is returned. Anything else returns the empty string and changes nothing. -/
def handlePossibleStreamController (fx : Fx) (ts fresh : String)
    (req resp : JsVal) (caller : String) (s : MainSt) : String × MainSt :=
  if s.enabled = false then ("", s)
  else if resp.truthy && resp.typeofIsObject && !(getField resp "controller").isUndefined
  then
    (fresh, logResponsesRequest fx ts fresh req
      (caller ++ " (stream controller detected)") s)
  else ("", s)

/-- Result of running the constructor: whether the logs directory was
created, whether the session header was written to the log file, and the
initial state. -/
structure CtorRes where
  madeDir : Bool
  wroteHeader : Bool
  st : MainSt

/-- The ApiLogger constructor (api-logger.ts lines 26-56): the logs
directory is created unconditionally when absent, outside any try/catch, so
a throwing mkdirSync propagates; then the enabled flag is read from the
LOG_API_RAW environment value, and when enabled the session header is
written inside a try/catch. -/
def constructorM (envLogApiRaw : String) (fx : Fx) : Except JsErr CtorRes :=
  match (if fx.dirExists then Except.ok false
         else if fx.mkdirOk then Except.ok true
         else Except.error JsErr.fsErr) with
  | .error e => .error e
  | .ok made =>
    let enabled := envLogApiRaw == "true"
    .ok ⟨made, enabled && fx.writeOk, ⟨enabled, false, [], []⟩⟩

/-- getApiLogger (api-logger.ts lines 377-382): return the process-wide
instance, constructing it on first use; a constructor error propagates. -/
def getApiLogger (envLogApiRaw : String) (fx : Fx) (inst : Option MainSt) :
    Except JsErr MainSt :=
  match inst with
  | some s => .ok s
  | none =>
    match constructorM envLogApiRaw fx with
    | .ok r => .ok r.st
    | .error e => .error e

/-- One public method call on the main logger, with its ambient inputs. -/
inductive MainOp where
  | setDisable (ts : String) (b : Bool)
  | respReq (ts id : String) (req : JsVal) (caller : String)
  | respResp (ts id : String) (resp : JsVal) (caller : String)
  | chatReq (ts id : String) (rreq creq : JsVal) (caller : String)
  | chatResp (ts id : String) (cresp rresp : JsVal) (caller : String)
  | streamCheck (ts fresh : String) (req resp : JsVal) (caller : String)

/-- Dispatch one public method call. -/
def mainStep (fx : Fx) (op : MainOp) (s : MainSt) : MainSt :=
  match op with
  | .setDisable ts b => setDisableResponseStorage fx ts b s
  | .respReq ts id req c => logResponsesRequest fx ts id req c s
  | .respResp ts id resp c => logResponsesResponse fx ts id resp c s
  | .chatReq ts id r cq c => logChatCompletionsRequest fx ts id r cq c s
  | .chatResp ts id cr rr c => logChatCompletionsResponse fx ts id cr rr c s
  | .streamCheck ts f req resp c =>
    (handlePossibleStreamController fx ts f req resp c s).2

/-- Run a sequence of public method calls. -/
def mainRun (fx : Fx) (ops : List MainOp) (s : MainSt) : MainSt :=
  ops.foldl (fun t op => mainStep fx op t) s

theorem mainStep_disabled (fx : Fx) (op : MainOp) (s : MainSt)
    (h : s.enabled = false) : mainStep fx op s = s := by
  cases op with
  | setDisable ts b =>
    simp [mainStep, setDisableResponseStorage, h]
  | respReq ts id req c =>
    simp [mainStep, logResponsesRequest, h]
  | respResp ts id resp c =>
    simp [mainStep, logResponsesResponse, h]
  | chatReq ts id r cq c =>
    simp [mainStep, logChatCompletionsRequest, h]
  | chatResp ts id cr rr c =>
    simp [mainStep, logChatCompletionsResponse, h]
  | streamCheck ts f req resp c =>
    simp [mainStep, handlePossibleStreamController, h]

theorem mainRun_disabled (fx : Fx) (ops : List MainOp) (s : MainSt)
    (h : s.enabled = false) : mainRun fx ops s = s := by
  induction ops with
  | nil => rfl
  | cons op rest ih =>
    show mainRun fx rest (mainStep fx op s) = s
    rw [mainStep_disabled fx op s h, ih]

theorem mapGet_mapDel_self {α : Type} (l : List (String × α)) (k : String) :
    mapGet (mapDel l k) k = none := by
  induction l with
  | nil => rfl
  | cons hd tl ih =>
    obtain ⟨k', v⟩ := hd
    by_cases h : k' = k
    · simpa [mapDel, List.filter_cons, h] using ih
    · simpa [mapDel, List.filter_cons, h, mapGet] using ih

theorem mapGet_mapDel_ne {α : Type} (l : List (String × α)) (k k' : String)
    (h : k' ≠ k) : mapGet (mapDel l k) k' = mapGet l k' := by
  induction l with
  | nil => rfl
  | cons hd tl ih =>
    obtain ⟨k0, v⟩ := hd
    have ih' : mapGet (List.filter (fun p => p.1 != k) tl) k' = mapGet tl k' := by
      simpa [mapDel] using ih
    have hk : k ≠ k' := Ne.symm h
    by_cases h0 : k0 = k
    · have hne : k0 ≠ k' := by rw [h0]; exact Ne.symm h
      simp [mapDel, List.filter_cons, h0, mapGet, hne, hk, ih']
    · by_cases h1 : k0 = k'
      · simp [mapDel, List.filter_cons, h0, mapGet, h1, h]
      · simp [mapDel, List.filter_cons, h0, mapGet, h1, ih']

theorem mapGet_mapSet_self {α : Type} (l : List (String × α)) (k : String)
    (v : α) : mapGet (mapSet l k v) k = some v := by
  simp [mapSet, mapGet]

theorem mapGet_mapSet_ne {α : Type} (l : List (String × α)) (k k' : String)
    (v : α) (h : k' ≠ k) : mapGet (mapSet l k v) k' = mapGet l k' := by
  have : k ≠ k' := Ne.symm h
  simp [mapSet, mapGet, this, mapGet_mapDel_ne l k k' h]

/-!
Model of the ApiLogger revision of src/unnamed/part_001 (the clean approach):
same redactor, but logRequest carries a requestLogged dedupe set, interim and
completed entries omit the translated sections when the corresponding payload
is falsy, and the final response label carries the BACK-TRANSLATED suffix
exactly when a chat response was passed. Its methods append with
fs.appendFileSync directly inside their own try/catch, so a failing append
skips the statements after it (in logResponse, the pending delete).
-/

/-- A pending request record of the part_001 revision (lines 77-82). -/
structure CleanPending where
  ts : String
  request : JsVal
  chatRequest : JsVal
  debugInfo : String

/-- State of the part_001 ApiLogger. -/
structure CleanSt where
  enabled : Bool
  disableStorage : Bool
  pending : List (String × CleanPending)
  requestLogged : List String
  log : List LogEntry

/-- The JS expression x || "unknown" on a string: the empty string is falsy. -/
def orUnknown (s : String) : String := if s == "" then "unknown" else s

/-- logRequest (part_001 lines 154-215): no-op when disabled or when the id
is already in the requestLogged set; otherwise the id is added to the set,
the pending record stored, and one interim entry appended, with the
translated-request section present only when the chat request is truthy. A
failing append loses only the entry (the set and the pending record were
already updated before it). -/
def logRequest (fx : Fx) (ts id : String) (req chatReq : JsVal) (dbg : String)
    (s : CleanSt) : CleanSt :=
  if s.enabled = false then s
  else if s.requestLogged.contains id then s
  else
    let s1 : CleanSt :=
      { s with
        requestLogged := id :: s.requestLogged,
        pending := mapSet s.pending id ⟨ts, req, chatReq, dbg⟩ }
    let e := LogEntry.entry
      ⟨ts, "logRequest called from " ++ mkCallerLine dbg id, false,
        s.disableStorage,
        [LogSection.respRequest (sanitizeData req)]
          ++ (if chatReq.truthy then
                [LogSection.chatRequestT (sanitizeData chatReq)] else [])
          ++ [LogSection.pendingNote]⟩
    if fx.appendOk then { s1 with log := s1.log ++ [e] } else s1

/-- logResponse (part_001 lines 224-319): absent ids get one flagged entry
with only the response sections; present ids get one combined entry whose
sections follow the stored record, after which the pending binding is
deleted; the delete is skipped when the append throws, because the source
deletes after the append inside the same try block. -/
def logResponse (fx : Fx) (ts id : String) (chatResp respResp : JsVal)
    (dbg : String) (s : CleanSt) : CleanSt :=
  if s.enabled = false then s
  else
    match mapGet s.pending id with
    | none =>
      let e := LogEntry.entry
        ⟨ts, "logResponse called from " ++ mkCallerLine dbg id
            ++ " - NO MATCHING REQUEST FOUND", true, false,
          (if chatResp.truthy then
              [LogSection.chatResponse (sanitizeData chatResp)] else [])
            ++ [LogSection.respResponse chatResp.truthy (sanitizeData respResp)]⟩
      if fx.appendOk then { s with log := s.log ++ [e] } else s
    | some p =>
      let e := LogEntry.entry
        ⟨ts, "logResponse called from " ++ dbg ++ " (requestId: " ++ id
            ++ ", requestLoggedFrom: " ++ orUnknown p.debugInfo ++ ")", false,
          s.disableStorage,
          [LogSection.respRequest (sanitizeData p.request)]
            ++ (if p.chatRequest.truthy then
                  [LogSection.chatRequestT (sanitizeData p.chatRequest)] else [])
            ++ (if chatResp.truthy then
                  [LogSection.chatResponse (sanitizeData chatResp)] else [])
            ++ [LogSection.respResponse chatResp.truthy (sanitizeData respResp)]⟩
      if fx.appendOk then
        { s with log := s.log ++ [e], pending := mapDel s.pending id }
      else s

/-- logApiCycle (part_001 lines 326-398): a truthy object whose controller
property is not undefined routes to logRequest under the fresh generated id;
every other response value, including the empty object, is logged as a
completed entry in one shot. -/
def logApiCycle (fx : Fx) (ts fresh : String)
    (rreq chatReq chatResp rresp : JsVal) (dbg : String) (s : CleanSt) :
    CleanSt :=
  if s.enabled = false then s
  else if rresp.truthy && rresp.typeofIsObject
      && !(getField rresp "controller").isUndefined then
    logRequest fx ts fresh rreq chatReq (dbg ++ " -> logApiCycle -> logRequest") s
  else
    let e := LogEntry.entry
      ⟨ts, "logApiCycle called from " ++ dbg, false, s.disableStorage,
        [LogSection.respRequest (sanitizeData rreq)]
          ++ (if chatReq.truthy then
                [LogSection.chatRequestT (sanitizeData chatReq)] else [])
          ++ (if chatResp.truthy then
                [LogSection.chatResponse (sanitizeData chatResp)] else [])
          ++ [LogSection.respResponse chatResp.truthy (sanitizeData rresp)]⟩
    if fx.appendOk then { s with log := s.log ++ [e] } else s

/-- An Fx run in which every filesystem call succeeds. -/
def fxOk : Fx := ⟨true, true, true, true⟩

/-- A fresh main-logger state with the given enabled flag. -/
def mainInit (e : Bool) : MainSt := ⟨e, false, [], []⟩

/-- A fresh part_001-logger state with the given enabled flag. -/
def cleanInit (e : Bool) : CleanSt := ⟨e, false, [], [], []⟩

theorem constructorM_ok (env : String) (fx : Fx) (r : CtorRes)
    (h : constructorM env fx = .ok r) :
    r = ⟨!fx.dirExists, (env == "true") && fx.writeOk,
         ⟨env == "true", false, [], []⟩⟩ := by
  unfold constructorM at h
  by_cases hd : fx.dirExists = true
  · simp [hd] at h
    simp [← h, hd]
  · by_cases hm : fx.mkdirOk = true
    · simp [hd, hm] at h
      simp [← h, hd]
    · simp [hd, hm] at h

/-- C3 counterexample: constructing the logger with the toggle off (the
environment value is not the string true) on a machine where the logs
directory is absent still creates the directory, because mkdirSync runs
before the enabled flag is even read (api-logger.ts lines 31-33, part_001
lines 91-93). The claim that no log location is created is therefore false:
only the log file and its entries are withheld. -/
theorem c3_dir_created_cex :
    constructorM "" ⟨false, true, true, true⟩
      = .ok ⟨true, false, mainInit false⟩ := rfl

/-- C3 (amended): with the toggle off, no session header is written, the
logger starts disabled, and no sequence of public operations ever appends an
entry or stores a pending record; the logs directory, however, may still be
created by the constructor (see the counterexample). -/
theorem c3_disabled_amended (env : String) (fx fx2 : Fx) (r : CtorRes)
    (ops : List MainOp) (henv : (env == "true") = false)
    (h : constructorM env fx = .ok r) :
    r.wroteHeader = false ∧ r.st.enabled = false
    ∧ (mainRun fx2 ops r.st).log = [] ∧ (mainRun fx2 ops r.st).pending = [] := by
  have hr := constructorM_ok env fx r h
  subst hr
  have hrun := mainRun_disabled fx2 ops ⟨env == "true", false, [], []⟩ henv
  refine ⟨by simp [henv], henv, ?_, ?_⟩
  · show (mainRun fx2 ops ⟨env == "true", false, [], []⟩).log = []
    rw [hrun]
  · show (mainRun fx2 ops ⟨env == "true", false, [], []⟩).pending = []
    rw [hrun]

/-- C3 witness: the amended theorem at a concrete disabled run with one
attempted record-request operation. -/
theorem c3_disabled_witness :
    (mainRun fxOk [MainOp.respReq "t" "id" (.vObj []) "c"]
      (mainInit false)).log = [] :=
  (c3_disabled_amended "false" fxOk fxOk ⟨false, false, mainInit false⟩
    [MainOp.respReq "t" "id" (.vObj []) "c"] (by decide) rfl).2.2.1

/-- C4 counterexample: obtaining the process-wide logger when the logs
directory is absent and mkdirSync throws propagates the error to the caller,
because the constructor runs mkdirSync outside any try/catch (api-logger.ts
lines 31-33); the claim that construction never lets an internal error
propagate is therefore false. -/
theorem c4_ctor_error_cex :
    getApiLogger "true" ⟨false, false, true, true⟩ none = .error JsErr.fsErr := rfl

/-- C4 (amended): every public method of the logger is a total state
transformer (each one wraps its fallible filesystem work in try/catch, as
modelled by mainStep and the part_001 operations), and construction itself
returns normally in every run except the one unprotected failure mode: the
logs directory being absent with mkdirSync throwing. Re-obtaining the
already-built process-wide instance also never fails. -/
theorem c4_methods_total_amended (env : String) (fx : Fx)
    (h : fx.dirExists = true ∨ fx.mkdirOk = true) :
    (∃ r, constructorM env fx = .ok r)
    ∧ (∀ s : MainSt, getApiLogger env fx (some s) = .ok s) := by
  refine ⟨?_, fun s => rfl⟩
  by_cases hd : fx.dirExists = true
  · exact ⟨⟨false, (env == "true") && fx.writeOk, ⟨env == "true", false, [], []⟩⟩,
      by simp [constructorM, hd]⟩
  · have hm : fx.mkdirOk = true := by
      rcases h with h | h
      · exact absurd h hd
      · exact h
    exact ⟨⟨true, (env == "true") && fx.writeOk, ⟨env == "true", false, [], []⟩⟩,
      by simp [constructorM, hd, hm]⟩

/-- C4 witness: the amended theorem at a concrete run with every filesystem
call succeeding. -/
theorem c4_methods_total_witness :
    getApiLogger "true" fxOk (some (mainInit true)) = .ok (mainInit true) :=
  (c4_methods_total_amended "true" fxOk (Or.inl rfl)).2 (mainInit true)

/-- The state after calling logResponsesRequest twice with the same id on a
fresh enabled main logger. -/
def c5CexState : MainSt :=
  logResponsesRequest fxOk "t2" "id1" (.vObj [("b", .vNum 2)]) "callerB"
    (logResponsesRequest fxOk "t1" "id1" (.vObj [("a", .vNum 1)]) "callerA"
      (mainInit true))

/-- C5 counterexample: in the main revision, logResponsesRequest has no
duplicate protection; calling it twice with the same id appends two interim
entries (the claim says exactly one) and the second call overwrites the
pending record (the claim says the second call is a no-op, not an
overwrite): the stored record afterwards carries the second timestamp,
caller and request. -/
theorem c5_duplicate_request_cex :
    c5CexState.log.length = 2
    ∧ c5CexState.log.all isInterimEntry = true
    ∧ mapGet c5CexState.pending "id1"
        = some ⟨"t2", "callerB", .vObj [("b", .vNum 2)], .vUndefined⟩ :=
  ⟨rfl, rfl, rfl⟩

/-- C5 (amended): in the part_001 revision, logRequest is protected by the
requestLogged set: a first call on a fresh id appends exactly one interim
entry, and a second call with the same id before any response is a complete
no-op (same state: no second entry, no overwrite of the pending record). In
the main revision the property fails (see the counterexample). -/
theorem c5_dedupe_amended (fx : Fx) (s : CleanSt) (ts1 ts2 id : String)
    (req1 chatReq1 req2 chatReq2 : JsVal) (d1 d2 : String)
    (hE : s.enabled = true) (hNew : s.requestLogged.contains id = false)
    (hA : fx.appendOk = true) :
    (logRequest fx ts1 id req1 chatReq1 d1 s).log
      = s.log ++ [LogEntry.entry
          ⟨ts1, "logRequest called from " ++ mkCallerLine d1 id, false,
            s.disableStorage,
            [LogSection.respRequest (sanitizeData req1)]
              ++ (if chatReq1.truthy then
                    [LogSection.chatRequestT (sanitizeData chatReq1)] else [])
              ++ [LogSection.pendingNote]⟩]
    ∧ (logRequest fx ts1 id req1 chatReq1 d1 s).log.length = s.log.length + 1
    ∧ logRequest fx ts2 id req2 chatReq2 d2 (logRequest fx ts1 id req1 chatReq1 d1 s)
        = logRequest fx ts1 id req1 chatReq1 d1 s := by
  have h1 : logRequest fx ts1 id req1 chatReq1 d1 s
      = { s with
          requestLogged := id :: s.requestLogged,
          pending := mapSet s.pending id ⟨ts1, req1, chatReq1, d1⟩,
          log := s.log ++ [LogEntry.entry
            ⟨ts1, "logRequest called from " ++ mkCallerLine d1 id, false,
              s.disableStorage,
              [LogSection.respRequest (sanitizeData req1)]
                ++ (if chatReq1.truthy then
                      [LogSection.chatRequestT (sanitizeData chatReq1)] else [])
                ++ [LogSection.pendingNote]⟩] } := by
    have hNew' : id ∉ s.requestLogged := by simpa using hNew
    simp [logRequest, hE, hNew', hA]
  refine ⟨by rw [h1], by rw [h1]; simp, ?_⟩
  rw [h1]
  simp [logRequest, hE]

/-- C5 witness: the amended theorem at a concrete pair of duplicate calls on
a fresh enabled part_001 logger. -/
theorem c5_dedupe_witness :
    logRequest fxOk "t2" "r1" (.vObj [("m", .vStr "x")]) .vNull "siteB"
      (logRequest fxOk "t1" "r1" (.vObj [("m", .vStr "x")]) .vNull "siteA"
        (cleanInit true))
    = logRequest fxOk "t1" "r1" (.vObj [("m", .vStr "x")]) .vNull "siteA"
        (cleanInit true) :=
  (c5_dedupe_amended fxOk (cleanInit true) "t1" "t2" "r1"
    (.vObj [("m", .vStr "x")]) .vNull (.vObj [("m", .vStr "x")]) .vNull
    "siteA" "siteB" rfl rfl rfl).2.2

theorem appendToLog_pending (fx : Fx) (e : LogEntry) (s : MainSt) :
    (appendToLog fx e s).pending = s.pending := by
  unfold appendToLog
  split
  · rfl
  · split <;> rfl

theorem appendToLog_enabled (fx : Fx) (e : LogEntry) (s : MainSt) :
    (appendToLog fx e s).enabled = s.enabled := by
  unfold appendToLog
  split
  · rfl
  · split <;> rfl

/-- C6 (confirmed): on an enabled main logger with appends succeeding, a
record-request for id followed by a record-response for id appends exactly
one completed entry carrying both the sanitized request and the sanitized
response sections; afterwards the pending map no longer contains id, and a
further record-response for the same id takes the not-found path, appending
only a flagged response-only entry and changing nothing else. -/
theorem c6_request_response_cycle (fx : Fx) (ts1 ts2 ts3 id : String)
    (req resp resp2 : JsVal) (c1 c2 c3 : String) (s : MainSt)
    (hE : s.enabled = true) (hA : fx.appendOk = true) :
    (logResponsesResponse fx ts2 id resp c2
        (logResponsesRequest fx ts1 id req c1 s)).log
      = (logResponsesRequest fx ts1 id req c1 s).log
        ++ [LogEntry.entry ⟨ts2, mkCallerLine2 c2 id c1, false, false,
            [LogSection.respRequest (sanitizeData req),
             LogSection.respResponse false (sanitizeData resp)]⟩]
    ∧ mapGet (logResponsesResponse fx ts2 id resp c2
        (logResponsesRequest fx ts1 id req c1 s)).pending id = none
    ∧ logResponsesResponse fx ts3 id resp2 c3
        (logResponsesResponse fx ts2 id resp c2
          (logResponsesRequest fx ts1 id req c1 s))
      = { logResponsesResponse fx ts2 id resp c2
            (logResponsesRequest fx ts1 id req c1 s) with
          log := (logResponsesResponse fx ts2 id resp c2
              (logResponsesRequest fx ts1 id req c1 s)).log
            ++ [LogEntry.entry ⟨ts3, mkCallerLine c3 id, true, false,
                [LogSection.respResponse false (sanitizeData resp2)]⟩] } := by
  refine ⟨?_, ?_, ?_⟩ <;>
    simp [logResponsesRequest, logResponsesResponse, appendToLog, hE, hA,
      mapGet_mapSet_self, mapGet_mapDel_self]

/-- C6 witness: the cycle theorem at a concrete enabled run. -/
theorem c6_cycle_witness :
    mapGet (logResponsesResponse fxOk "t2" "q1" (.vObj [("ok", .vBool true)]) "b"
      (logResponsesRequest fxOk "t1" "q1" (.vObj [("m", .vStr "g")]) "a"
        (mainInit true))).pending "q1" = none :=
  (c6_request_response_cycle fxOk "t1" "t2" "t3" "q1" (.vObj [("m", .vStr "g")])
    (.vObj [("ok", .vBool true)]) .vNull "a" "b" "c" (mainInit true) rfl rfl).2.1

/-- C7 (confirmed): on an enabled main logger with appends succeeding, a
record-response for an id with no pending record appends exactly one entry
flagged NO MATCHING REQUEST FOUND, containing the sanitized response
section; the pending map and everything else are unchanged, and the
operation is a total function (the source wraps the body in try/catch), so
it cannot throw. -/
theorem c7_unmatched_response (fx : Fx) (ts id : String) (resp : JsVal)
    (caller : String) (s : MainSt) (hE : s.enabled = true)
    (hA : fx.appendOk = true) (hN : mapGet s.pending id = none) :
    logResponsesResponse fx ts id resp caller s
      = { s with log := s.log ++ [LogEntry.entry
          ⟨ts, mkCallerLine caller id, true, false,
            [LogSection.respResponse false (sanitizeData resp)]⟩] } := by
  simp [logResponsesResponse, appendToLog, hE, hA, hN]

/-- C7 witness: the unmatched-response theorem at a concrete id never passed
to the record-request operation. -/
theorem c7_unmatched_witness :
    logResponsesResponse fxOk "t1" "ghost" (.vObj [("ok", .vBool true)]) "site"
        (mainInit true)
      = { mainInit true with log := [LogEntry.entry
          ⟨"t1", mkCallerLine "site" "ghost", true, false,
            [LogSection.respResponse false (sanitizeData (.vObj [("ok", .vBool true)]))]⟩] } :=
  c7_unmatched_response fxOk "t1" "ghost" (.vObj [("ok", .vBool true)]) "site"
    (mainInit true) rfl rfl rfl

/-- C10 (confirmed): a record-response call for id leaves every pending
binding for another id unchanged, and when id has no pending record the
pending map is left entirely unchanged, in all three response loggers (the
two of the main revision and the part_001 one), whatever the enabled flag
and the append outcome. -/
theorem c10_response_frame (fx : Fx) (ts id id' : String)
    (resp cresp rresp chatResp respResp : JsVal)
    (callerM callerC dbg : String) (s : MainSt) (t : CleanSt) (hne : id' ≠ id) :
    mapGet (logResponsesResponse fx ts id resp callerM s).pending id'
      = mapGet s.pending id'
    ∧ (mapGet s.pending id = none →
        (logResponsesResponse fx ts id resp callerM s).pending = s.pending)
    ∧ mapGet (logChatCompletionsResponse fx ts id cresp rresp callerC s).pending id'
      = mapGet s.pending id'
    ∧ (mapGet s.pending id = none →
        (logChatCompletionsResponse fx ts id cresp rresp callerC s).pending = s.pending)
    ∧ mapGet (logResponse fx ts id chatResp respResp dbg t).pending id'
      = mapGet t.pending id'
    ∧ (mapGet t.pending id = none →
        (logResponse fx ts id chatResp respResp dbg t).pending = t.pending) := by
  refine ⟨?_, ?_, ?_, ?_, ?_, ?_⟩
  · by_cases hsE : s.enabled = false
    · simp [logResponsesResponse, hsE]
    · cases hP : mapGet s.pending id with
      | none => simp [logResponsesResponse, hsE, hP, appendToLog_pending]
      | some p =>
        simp [logResponsesResponse, hsE, hP, appendToLog_pending,
          mapGet_mapDel_ne _ _ _ hne]
  · intro h
    by_cases hsE : s.enabled = false
    · simp [logResponsesResponse, hsE]
    · simp [logResponsesResponse, hsE, h, appendToLog_pending]
  · by_cases hsE : s.enabled = false
    · simp [logChatCompletionsResponse, hsE]
    · cases hP : mapGet s.pending id with
      | none => simp [logChatCompletionsResponse, hsE, hP, appendToLog_pending]
      | some p =>
        simp [logChatCompletionsResponse, hsE, hP, appendToLog_pending,
          mapGet_mapDel_ne _ _ _ hne]
  · intro h
    by_cases hsE : s.enabled = false
    · simp [logChatCompletionsResponse, hsE]
    · simp [logChatCompletionsResponse, hsE, h, appendToLog_pending]
  · by_cases htE : t.enabled = false
    · simp [logResponse, htE]
    · cases hP : mapGet t.pending id with
      | none =>
        by_cases hA : fx.appendOk = true <;> simp [logResponse, htE, hP, hA]
      | some p =>
        by_cases hA : fx.appendOk = true <;>
          simp [logResponse, htE, hP, hA, mapGet_mapDel_ne _ _ _ hne]
  · intro h
    by_cases htE : t.enabled = false
    · simp [logResponse, htE]
    · by_cases hA : fx.appendOk = true <;> simp [logResponse, htE, h, hA]

/-- C10 witness: the frame theorem at a concrete state holding a pending
record for another id. -/
theorem c10_response_frame_witness :
    mapGet (logResponsesResponse fxOk "t9" "idX" (.vObj [("ok", .vBool true)]) "c"
      { mainInit true with
        pending := [("idY", ⟨"t0", "a", .vObj [("m", .vStr "x")], .vUndefined⟩)] }).pending "idY"
      = mapGet
        ({ mainInit true with
          pending := [("idY", ⟨"t0", "a", .vObj [("m", .vStr "x")], .vUndefined⟩)] } :
            MainSt).pending "idY" :=
  (c10_response_frame fxOk "t9" "idX" "idY" (.vObj [("ok", .vBool true)]) .vNull .vNull
    .vNull .vNull "c" "c" "c"
    { mainInit true with
      pending := [("idY", ⟨"t0", "a", .vObj [("m", .vStr "x")], .vUndefined⟩)] }
    (cleanInit true) (by decide)).1

theorem logRequest_appends_only_interim (fx : Fx) (ts id : String)
    (req chatReq : JsVal) (dbg : String) (s : CleanSt) :
    ∀ e ∈ (logRequest fx ts id req chatReq dbg s).log,
      e ∈ s.log ∨ isInterimEntry e = true := by
  intro e he
  by_cases hsE : s.enabled = false
  · simp [logRequest, hsE] at he
    exact Or.inl he
  · by_cases hDup : id ∈ s.requestLogged
    · simp [logRequest, hsE, hDup] at he
      exact Or.inl he
    · by_cases hA : fx.appendOk = true
      · simp [logRequest, hsE, hDup, hA] at he
        rcases he with he | he
        · exact Or.inl he
        · subst he
          right
          simp [isInterimEntry]
      · simp [logRequest, hsE, hDup, hA] at he
        exact Or.inl he

/-- The state after passing the empty object as the primary response of a
complete cycle on a fresh enabled part_001 logger. -/
def c8CexState : CleanSt :=
  logApiCycle fxOk "t1" "fr1" (.vObj []) .vNull .vNull (.vObj []) "site"
    (cleanInit true)

/-- C8 counterexample: the spec classifies the empty object as a placeholder,
but the code only tests for a controller property; logApiCycle with the
empty object as the primary response logs one completed entry (request plus
final response sections, no interim note), instead of routing to the defer
path, so a spec-placeholder does produce a completed entry. -/
theorem c8_empty_placeholder_cex :
    c8CexState.log
      = [LogEntry.entry ⟨"t1", "logApiCycle called from site", false, false,
          [LogSection.respRequest (.vObj []),
           LogSection.respResponse false (.vObj [])]⟩]
    ∧ c8CexState.log.all (fun e => !(isInterimEntry e)) = true :=
  ⟨rfl, rfl⟩

/-- C8 (amended): the classification the code actually performs is the
controller test alone: a truthy object whose controller property is not
undefined (whatever its other fields) is routed to the defer path, which is
logRequest under the freshly generated id, and that path only ever appends
interim entries, never a completed one. Empty objects and other
spec-placeholders fail the controller test and are logged as completed
responses (see the counterexample). -/
theorem c8_controller_defer_amended (fx : Fx) (ts fresh : String)
    (rreq chatReq chatResp rresp : JsVal) (dbg : String) (s : CleanSt)
    (ht : rresp.truthy = true) (ho : rresp.typeofIsObject = true)
    (hc : (getField rresp "controller").isUndefined = false) :
    logApiCycle fx ts fresh rreq chatReq chatResp rresp dbg s
      = logRequest fx ts fresh rreq chatReq
          (dbg ++ " -> logApiCycle -> logRequest") s
    ∧ ∀ e ∈ (logApiCycle fx ts fresh rreq chatReq chatResp rresp dbg s).log,
        e ∈ s.log ∨ isInterimEntry e = true := by
  have h1 : logApiCycle fx ts fresh rreq chatReq chatResp rresp dbg s
      = logRequest fx ts fresh rreq chatReq
          (dbg ++ " -> logApiCycle -> logRequest") s := by
    by_cases hsE : s.enabled = false
    · simp [logApiCycle, logRequest, hsE]
    · simp [logApiCycle, hsE, ht, ho, hc]
  refine ⟨h1, ?_⟩
  rw [h1]
  exact logRequest_appends_only_interim fx ts fresh rreq chatReq
    (dbg ++ " -> logApiCycle -> logRequest") s

/-- C8 witness: the amended theorem at a concrete stream-controller object
(which also has a second field, exercising the whatever-other-fields part). -/
theorem c8_controller_defer_witness :
    logApiCycle fxOk "t" "fr" (.vObj [("m", .vStr "x")]) .vNull .vNull
        (.vObj [("controller", .vObj []), ("extra", .vNum 1)]) "site"
        (cleanInit true)
      = logRequest fxOk "t" "fr" (.vObj [("m", .vStr "x")]) .vNull
          "site -> logApiCycle -> logRequest" (cleanInit true) :=
  (c8_controller_defer_amended fxOk "t" "fr" (.vObj [("m", .vStr "x")]) .vNull
    .vNull (.vObj [("controller", .vObj []), ("extra", .vNum 1)]) "site"
    (cleanInit true) rfl rfl rfl).1

/-- The fixed completed-entry section layout, written from the spec words:
primary request first, then the secondary (translated) request when present,
then the secondary response when present, then the primary response, whose
label carries the back-translated mark exactly when a secondary response was
present. -/
def specCompletedSections (preq : JsVal) (hasSecReq : Bool) (sreq : JsVal)
    (hasSecResp : Bool) (sresp : JsVal) (presp : JsVal) : List LogSection :=
  [.respRequest preq]
    ++ (if hasSecReq then [.chatRequestT sreq] else [])
    ++ (if hasSecResp then [.chatResponse sresp] else [])
    ++ [.respResponse hasSecResp presp]

/-- C9 (amended): in the part_001 revision, every completed entry written by
logResponse follows the spec layout exactly: fixed section order, the
translated request present exactly when the stored secondary request is
truthy, the secondary response present exactly when one was passed, and the
primary response labeled back-translated exactly when a secondary response
was present. The main revision violates the claim (see the counterexample):
its chat-path completed entries always carry all four sections and label the
primary response TRANSLATED, never back-translated. -/
theorem c9_completed_sections_amended (fx : Fx) (ts id : String)
    (chatResp respResp : JsVal) (dbg : String) (t : CleanSt) (p : CleanPending)
    (hE : t.enabled = true) (hA : fx.appendOk = true)
    (hP : mapGet t.pending id = some p) :
    logResponse fx ts id chatResp respResp dbg t
      = { t with
          log := t.log ++ [LogEntry.entry
            ⟨ts, "logResponse called from " ++ dbg ++ " (requestId: " ++ id
                ++ ", requestLoggedFrom: " ++ orUnknown p.debugInfo ++ ")",
              false, t.disableStorage,
              specCompletedSections (sanitizeData p.request)
                p.chatRequest.truthy (sanitizeData p.chatRequest)
                chatResp.truthy (sanitizeData chatResp)
                (sanitizeData respResp)⟩],
          pending := mapDel t.pending id } := by
  simp [logResponse, hE, hA, hP, specCompletedSections]

/-- The state after a plain record-request followed by a chat-path
record-response on a fresh enabled main logger. -/
def c9CexState : MainSt :=
  logChatCompletionsResponse fxOk "t2" "id9" (.vObj [("c", .vNum 1)])
    (.vObj [("r", .vNum 2)]) "b"
    (logResponsesRequest fxOk "t1" "id9" (.vObj []) "a" (mainInit true))

/-- C9 counterexample: in the main revision, logChatCompletionsResponse
writes a completed entry that carries a translated-request section even
though no secondary request was stored (it prints the undefined slot instead
of omitting the section), and its primary response section carries the
TRANSLATED label, not a back-translated one, even though a secondary
response was present; both contradict the claim. -/
theorem c9_sections_cex :
    c9CexState.log
      = [LogEntry.entry ⟨"t1", mkCallerLine "a" "id9", false, false,
          [LogSection.respRequest (.vObj []), LogSection.pendingNote]⟩,
         LogEntry.entry ⟨"t2", mkCallerLine2 "b" "id9" "a", false, false,
          [LogSection.respRequest (.vObj []),
           LogSection.chatRequestT .vUndefined,
           LogSection.chatResponse (.vObj [("c", .vNum 1)]),
           LogSection.respResponseT (.vObj [("r", .vNum 2)])]⟩] := rfl

/-- The pending record and state for the C9 witness. -/
def c9WitnessPending : CleanPending := ⟨"t1", .vObj [("m", .vStr "x")], .vNull, "siteA"⟩

/-- A part_001 logger state holding one pending record for id w9. -/
def c9WitnessState : CleanSt := ⟨true, false, [("w9", c9WitnessPending)], ["w9"], []⟩

/-- C9 witness: the amended theorem at a concrete completed cycle with a
secondary response present and no secondary request stored. -/
theorem c9_completed_sections_witness :
    logResponse fxOk "t2" "w9" (.vObj [("choice", .vNum 1)])
        (.vObj [("out", .vStr "ok")]) "siteB" c9WitnessState
      = { c9WitnessState with
          log := c9WitnessState.log ++ [LogEntry.entry
            ⟨"t2", "logResponse called from " ++ "siteB" ++ " (requestId: " ++ "w9"
                ++ ", requestLoggedFrom: " ++ orUnknown c9WitnessPending.debugInfo
                ++ ")",
              false, c9WitnessState.disableStorage,
              specCompletedSections (sanitizeData c9WitnessPending.request)
                c9WitnessPending.chatRequest.truthy
                (sanitizeData c9WitnessPending.chatRequest)
                (JsVal.vObj [("choice", .vNum 1)]).truthy
                (sanitizeData (.vObj [("choice", .vNum 1)]))
                (sanitizeData (.vObj [("out", .vStr "ok")]))⟩],
          pending := mapDel c9WitnessState.pending "w9" } :=
  c9_completed_sections_amended fxOk "t2" "w9" (.vObj [("choice", .vNum 1)])
    (.vObj [("out", .vStr "ok")]) "siteB" c9WitnessState c9WitnessPending
    rfl rfl rfl
